import Mathlib

/-!
Shallow embedding of the `govr` ONVIF discovery-and-probe pipeline.

The Go sources embedded here are:
* `network` package (interface enumeration, IP expansion, port testing),
* `onvif/discovery.go` (WS-discovery probe response handling),
* `onvif/device.go` (the sequential probe handshake and request executor),
* `scan/scan.go` (candidate gathering, port scan, and the top-level run).

IPv4 addresses are modelled as natural numbers below `2^32`; time instants
and durations as integers (nanoseconds, as Go `time.Time`/`time.Duration`
both are); network and HTTP I/O as environment data supplied to the pure
control-flow functions.  Library primitives that the claims never inspect
(SHA-1, base64, RFC3339 formatting) are fields of a `Lib` record quantified
over in the theorems.
-/

namespace Govr

/-! ## Go string helpers

`goContains s sub` is Go's `strings.Contains(s, sub)` (substring
containment); `ipFromAddr` is the repository's helper that keeps the part
of `addr.String()` before the first colon. -/

def goContainsList (sub : List Char) : List Char → Bool
  | [] => sub.isEmpty
  | c :: rest => sub.isPrefixOf (c :: rest) || goContainsList sub rest

def goContains (s sub : String) : Bool :=
  goContainsList sub.toList s.toList

/-- Go's `strings.ReplaceAll(s, old, new)` for a non-empty `old`, scanning
left to right and replacing every non-overlapping occurrence (the sources
only ever replace non-empty placeholders). -/
def goReplaceList (pat rep : List Char) : List Char → List Char
  | [] => []
  | c :: rest =>
    if hne : pat ≠ [] ∧ pat.isPrefixOf (c :: rest) = true then
      rep ++ goReplaceList pat rep ((c :: rest).drop pat.length)
    else
      c :: goReplaceList pat rep rest
termination_by l => l.length
decreasing_by
  all_goals simp only [List.length_drop, List.length_cons]
  · have hp : 0 < pat.length := List.length_pos.mpr hne.1
    omega
  · omega

def goReplaceAll (s pat rep : String) : String :=
  String.mk (goReplaceList pat.toList rep.toList s.toList)

def ipFromAddr (addr : String) : String :=
  String.mk (addr.toList.takeWhile (fun c => c ≠ ':'))

/-! ## `network` package -/

/-- A parsed IPv4 CIDR prefix: the (possibly unmasked) address and the
prefix length in bits, as produced by `netip.ParsePrefix`. -/
structure CIDR where
  addr : Nat
  len : Nat
deriving DecidableEq, Repr

/-- `netip.Prefix.Masked`: clear the `32 - len` low bits of the address. -/
def maskedAddr (c : CIDR) : Nat :=
  c.addr / 2 ^ (32 - c.len) * 2 ^ (32 - c.len)

/-- `netip.Prefix.Contains`: the address is a valid IPv4 address (`Next` on
the last address yields an invalid one, which `Contains` rejects) and its
high `len` bits agree with the prefix's. -/
def prefixContains (c : CIDR) (a : Nat) : Bool :=
  a < 2 ^ 32 && a / 2 ^ (32 - c.len) == c.addr / 2 ^ (32 - c.len)

/-- The `for { if !p.Contains(addr) break; ...; addr = addr.Next() }` loop
of `GetIPsOnNetwork`, collecting addresses from `a` upward while they stay
inside the prefix.  The loop of the Go code has no fuel: it terminates
because the address strictly increases and `Contains` fails at latest once
the address space is exhausted, so at most `2^32 + 1` iterations happen
from any start; the fuel passed by `GetIPsOnNetwork` strictly exceeds that
bound and is therefore never the reason the loop stops. -/
def ipLoop (c : CIDR) : Nat → Nat → List Nat
  | _, 0 => []
  | a, fuel + 1 =>
    if prefixContains c a then
      a :: ipLoop c (a + 1) fuel
    else
      []

/-- `network.GetIPsOnNetwork`: mask the prefix, then enumerate every
address it contains starting from the masked base address. -/
def GetIPsOnNetwork (c : CIDR) : List Nat :=
  let p : CIDR := { addr := maskedAddr c, len := c.len }
  ipLoop p p.addr (2 ^ 32 + 2)

/-- `netip.Addr.String` for IPv4: dotted-quad rendering, used when the
expanded addresses are turned into scan candidates. -/
def ipString (a : Nat) : String :=
  toString (a / 2 ^ 24 % 256) ++ "." ++ toString (a / 2 ^ 16 % 256) ++ "." ++
    toString (a / 2 ^ 8 % 256) ++ "." ++ toString (a % 256)

/-- Outcome of one `net.DialTimeout` attempt: a connection, or an error
carrying Go's error message. -/
inductive DialResult where
  | connected
  | failed (msg : String)
deriving DecidableEq, Repr

/-- `network.IsPortOpen`: an error whose message mentions resource
exhaustion is returned as an error; any other dial error is reported as
`(false, nil)`; a successful dial is closed and reported open. -/
def IsPortOpen (address : String) (r : DialResult) : Bool × Option String :=
  match r with
  | .failed msg =>
    if goContains msg "too many open files" then
      (false, some ("error opening " ++ address ++ ": " ++ msg))
    else
      (false, none)
  | .connected => (true, none)

/-! ## `onvif/discovery.go`

`net/url` is modelled on the URL shape exercised here
(`scheme://host[:port][/path]`): `goParseURL` splits at the first `"://"`
and then at the first slash; `goPort` is `url.URL.Port` (the digits after
the last colon of the host, when they are all digits); `goURLString`
reassembles the URL as `url.URL.String` does for this shape (the host,
port included, is printed verbatim). -/

structure GoURL where
  scheme : String
  host : String
  path : String
deriving DecidableEq, Repr

/-- Split a character list at the first occurrence of `pat`, returning the
parts before and after it. -/
def splitFirst (pat : List Char) : List Char → Option (List Char × List Char)
  | [] => if pat.isPrefixOf ([] : List Char) then some ([], []) else none
  | c :: rest =>
    if pat.isPrefixOf (c :: rest) then
      some ([], (c :: rest).drop pat.length)
    else
      match splitFirst pat rest with
      | some (a, b) => some (c :: a, b)
      | none => none

def goParseURL (s : String) : Option GoURL :=
  match splitFirst "://".toList s.toList with
  | none => none
  | some (scheme, rest) =>
    if scheme = [] then none
    else
      some { scheme := String.mk scheme,
             host := String.mk (rest.takeWhile (fun c => c ≠ '/')),
             path := String.mk (rest.dropWhile (fun c => c ≠ '/')) }

def goPort (host : String) : String :=
  let cs := host.toList
  if cs.contains ':' then
    let after := (cs.reverse.takeWhile (fun c => c ≠ ':')).reverse
    if after.all Char.isDigit then String.mk after else ""
  else ""

def goURLString (u : GoURL) : String :=
  u.scheme ++ "://" ++ u.host ++ u.path

/-- One `ProbeMatch` record of a WS-discovery response. -/
structure ProbeMatch where
  endpointReference : String
  types : String
  scopes : String
  xaddrs : String
deriving DecidableEq, Repr

/-- A parsed WS-discovery response envelope: the `RelatesTo` correlation
field and the list of matches. -/
structure ProbeResponse where
  uuid : String
  Matches : List ProbeMatch
deriving DecidableEq, Repr

/-- The per-match correction of `GetONVIFVideoTransmitters`: parse the
advertised `XAddrs` URL (skipping the match on a parse error), default the
port to `"80"` when the URL carries none, and replace the host with
`srcIP:port` where `srcIP` is the UDP packet's source address. -/
def correctEndpoint (srcIP : String) (xaddrs : String) : Option String :=
  match goParseURL xaddrs with
  | none => none
  | some endpoint =>
    let port := goPort endpoint.host
    let port := if port = "" then "80" else port
    some (goURLString { endpoint with host := srcIP ++ ":" ++ port })

/-- Processing of one parsed discovery response received from source
address `src`: responses whose `RelatesTo` does not contain the outgoing
message identifier are ignored; each match whose `Types` contains the
`NetworkVideoTransmitter` marker contributes its corrected endpoint. -/
def handleResponse (msgID : String) (resp : ProbeResponse) (src : String) : List String :=
  if goContains resp.uuid msgID then
    resp.Matches.filterMap (fun m =>
      if goContains m.types "NetworkVideoTransmitter" then
        correctEndpoint (ipFromAddr src) m.xaddrs
      else
        none)
  else
    []

/-- The receive loop of `GetONVIFVideoTransmitters` over the packets read
before the deadline: each packet is a pair of its parse result (`none` for
an unmarshalling failure, which is logged and skipped) and its UDP source
address; accepted endpoints are accumulated in arrival order. -/
def GetONVIFVideoTransmitters (msgID : String)
    (packets : List (Option ProbeResponse × String)) : List String :=
  packets.foldl (fun acc p =>
    match p.1 with
    | none => acc
    | some resp => acc ++ handleResponse msgID resp p.2) []

/-! ## `onvif/device.go`

The probe handshake is embedded with the HTTP exchange as environment
data: a `ProbeEnv` supplies the parsed result (or Go error string) of each
request the handshake can issue, the local clock readings, and the random
nonces.  Every `makeRequest` call is recorded in an explicit trace so the
theorems can speak about the requests actually issued and the
authentication material each one carried. -/

structure Capabilities where
  eventsAddress : String := ""
  mediaAddress : String := ""
deriving DecidableEq, Repr

structure DeviceInformation where
  manufacturer : String := ""
  model : String := ""
  firmwareVersion : String := ""
  serialNumber : String := ""
  hardwareID : String := ""
deriving DecidableEq, Repr

structure Profile where
  token : String := ""
  name : String := ""
  uri : String := ""
  boundsWidth : Int := 0
  boundsHeight : Int := 0
deriving DecidableEq, Repr

structure Device where
  address : String := ""
  username : String := ""
  password : String := ""
  clockOffset : Int := 0
  capabilities : Capabilities := {}
  deviceInformation : DeviceInformation := {}
  profiles : List Profile := []
deriving DecidableEq, Repr

def NewDevice (address username password : String) : Device :=
  { address := address, username := username, password := password }

/-- Library primitives used by `makeRequest` that the handshake never
inspects: SHA-1 followed by base64 (`sha1b64`), plain base64 (`b64`), and
`time.Time.Format(time.RFC3339Nano)` on a UTC instant (`fmtTime`). -/
structure Lib where
  sha1b64 : String → String
  b64 : String → String
  fmtTime : Int → String

/-- The security header block of one request: absent, or a WS-UsernameToken
carrying the username, the base64 nonce, the creation instant (also carried
formatted by `Lib.fmtTime`), and the base64 password digest. -/
inductive SecHeader where
  | noAuth
  | auth (username nonceB64 : String) (created : Int) (digest : String)
deriving DecidableEq

/-- One issued request, as recorded in the handshake trace. -/
structure Request where
  url : String
  body : String
  offsetUsed : Int
  localTime : Int
  header : SecHeader
deriving DecidableEq

/-- `Device.makeRequest`, lines 301-320: when a username is configured the
header is the auth block with `created = time.Now().Add(d.ClockOffset)`
and digest `sha1(nonce + created + password)`; otherwise the header is
empty.  The HTTP outcome itself is environment data. -/
def mkRequest (lib : Lib) (d : Device) (localTime : Int) (nonce : String)
    (url body : String) : Request :=
  { url := url, body := body, offsetUsed := d.clockOffset, localTime := localTime,
    header :=
      if d.username ≠ "" then
        let created := localTime + d.clockOffset
        SecHeader.auth d.username (lib.b64 nonce) created
          (lib.sha1b64 (nonce ++ lib.fmtTime created ++ d.password))
      else
        SecHeader.noAuth }

def getCapabilitiesBody : String :=
  "\n<tds:GetCapabilities xmlns:tds=\"http://www.onvif.org/ver10/device/wsdl\">\n\t<tds:Category>All</tds:Category>\n</tds:GetCapabilities>"

def getDateAndTimeBody : String :=
  "<tds:GetSystemDateAndTime xmlns:tds=\"http://www.onvif.org/ver10/device/wsdl\"/>"

def getDeviceInformationBody : String :=
  "<tds:GetDeviceInformation xmlns:tds=\"http://www.onvif.org/ver10/device/wsdl\"/>"

def getProfilesBody : String :=
  "<trt:GetProfiles xmlns:trt=\"http://www.onvif.org/ver10/media/wsdl\"/>"

def getStreamUriBody : String :=
  "\n<trt:GetStreamUri xmlns:trt=\"http://www.onvif.org/ver10/media/wsdl\" xmlns:tt=\"http://www.onvif.org/ver10/schema\">\n\t<trt:StreamSetup>\n\t\t<tt:Stream>RTP-Unicast</tt:Stream>\n\t\t<tt:Transport><tt:Protocol>RTSP</tt:Protocol></tt:Transport>\n\t</trt:StreamSetup>\n\t<trt:ProfileToken>\x7b\x7btoken\x7d\x7d</trt:ProfileToken>\n</trt:GetStreamUri>"

/-- `strings.ReplaceAll(getStreamUriBody, token placeholder, token)`. -/
def streamUriBodyFor (token : String) : String :=
  goReplaceAll getStreamUriBody "\x7b\x7btoken\x7d\x7d" token

/-- Environment of one probe attempt: parsed results (or error strings) of
the handshake requests, the device time parsed from the clock response, the
local clock reading taken when the offset is computed (`now`), the local
clock reading at the `k`-th `makeRequest` call, and the `k`-th nonce. -/
structure ProbeEnv where
  capsResult : Except String Capabilities
  timeResult : Except String Int
  infoResult : Except String DeviceInformation
  profilesResult : Except String (List Profile)
  streamUri : String → Except String String
  now : Int
  localTime : Nat → Int
  nonce : Nat → String

/-- The per-profile loop of `Device.GetProfiles`, lines 176-184: one
stream-URI request per profile, keyed by its token, writing the URI into
the profile in place; the first failure aborts the whole step. -/
def fetchURIs (lib : Lib) (env : ProbeEnv) (d : Device) :
    List Profile → Nat → Except (String × List Request) (List Profile × List Request)
  | [], _ => .ok ([], [])
  | p :: rest, k =>
    let req := mkRequest lib d (env.localTime k) (env.nonce k)
      d.capabilities.mediaAddress (streamUriBodyFor p.token)
    match env.streamUri p.token with
    | .error e => .error (e, [req])
    | .ok uri =>
      match fetchURIs lib env d rest (k + 1) with
      | .error (e, reqs) => .error (e, req :: reqs)
      | .ok (ps, reqs) => .ok ({ p with uri := uri } :: ps, req :: reqs)

/-- `Device.Probe`, lines 190-225: capability discovery, the media-address
check, clock synchronization, identity retrieval, then profile and
stream-URI retrieval, each step feeding the next; returns the
valid/recognized flag and error exactly as the Go code does, together with
the final device state and the trace of issued requests. -/
def Probe (lib : Lib) (env : ProbeEnv) (d : Device) :
    (Bool × Option String) × Device × List Request :=
  let reqCaps := mkRequest lib d (env.localTime 0) (env.nonce 0) d.address getCapabilitiesBody
  match env.capsResult with
  | .error e => ((false, some ("failed to get capabilities: " ++ e)), d, [reqCaps])
  | .ok caps =>
    if caps.mediaAddress = "" then
      ((false, some "no media address found in capabilities"), d, [reqCaps])
    else
      let d := { d with capabilities := caps }
      let reqTime := mkRequest lib d (env.localTime 1) (env.nonce 1) d.address getDateAndTimeBody
      match env.timeResult with
      | .error e =>
        ((false, some ("failed to get system date and time: " ++ e)), d, [reqCaps, reqTime])
      | .ok deviceTime =>
        let d := { d with clockOffset := -(env.now - deviceTime) }
        let reqInfo := mkRequest lib d (env.localTime 2) (env.nonce 2) d.address
          getDeviceInformationBody
        match env.infoResult with
        | .error e =>
          ((true, some ("failed to get device information: " ++ e)), d,
            [reqCaps, reqTime, reqInfo])
        | .ok info =>
          let d := { d with deviceInformation := info }
          let reqProfiles := mkRequest lib d (env.localTime 3) (env.nonce 3)
            d.capabilities.mediaAddress getProfilesBody
          match env.profilesResult with
          | .error e => ((true, some e), d, [reqCaps, reqTime, reqInfo, reqProfiles])
          | .ok profs =>
            match fetchURIs lib env d profs 4 with
            | .error (e, reqs) =>
              ((true, some e), d, [reqCaps, reqTime, reqInfo, reqProfiles] ++ reqs)
            | .ok (ps, reqs) =>
              ((true, none), { d with profiles := ps },
                [reqCaps, reqTime, reqInfo, reqProfiles] ++ reqs)

/-! ## `scan/scan.go`

The worker pool of `FindHostsWithOpenPort` is sequentialized over the
candidate list (the claims concern which candidates are gathered and how
per-candidate errors are treated, not scheduling); a worker `panic`, which
in Go terminates the process, is modelled as the `.error` outcome of the
scan.  Interface enumeration, discovery, dialing, and the per-candidate
HTTP exchanges are supplied by a `ScanEnv`. -/

/-- Candidate gathering of `FindHostsWithOpenPort`, lines 102-122: each
prefix is expanded; a prefix of more than 256 addresses is skipped
(log-only), a smaller one contributes every `ip:port` pair. -/
def gatherCandidates (port : Nat) : List CIDR → List String
  | [] => []
  | c :: rest =>
    let ips := (GetIPsOnNetwork c).map ipString
    (if ips.length ≤ 256 then ips.map (fun ip => ip ++ ":" ++ toString port) else [])
      ++ gatherCandidates port rest

/-- The scan workers of `FindHostsWithOpenPort`, lines 128-143: each
candidate is dialed; an `IsPortOpen` error is a `panic` that aborts the
whole scan, an open port adds the candidate to the keepers. -/
def scanCandidates (dial : String → DialResult) : List String → Except String (List String)
  | [] => .ok []
  | c :: rest =>
    match IsPortOpen c (dial c) with
    | (_, some e) => .error e
    | (isOpen, none) =>
      match scanCandidates dial rest with
      | .error e => .error e
      | .ok keepers => .ok (if isOpen then c :: keepers else keepers)

def FindHostsWithOpenPort (dial : String → DialResult) (port : Nat)
    (cidrs : List CIDR) : Except String (List String) :=
  scanCandidates dial (gatherCandidates port cidrs)

/-- Environment of one `GetDevicesOnNetwork` run: the interface table (or
its error), the per-interface outcome of `GetONVIFVideoTransmitters`, the
dial outcomes, and the per-candidate probe environment. -/
structure ScanEnv where
  ifaces : Except String (List (String × CIDR))
  discover : String → Except String (List String)
  dial : String → DialResult
  probeEnv : String → ProbeEnv
  lib : Lib

/-- The ws-discovery loop of `GetDevicesOnNetwork`, lines 25-35: interfaces
are visited in order; the first discovery error is returned to the caller
at once (`return nil, err`).  The second component records which interfaces
were actually attempted. -/
def runDiscovery (discover : String → Except String (List String)) :
    List (String × CIDR) → Except String (List String) × List String
  | [] => (.ok [], [])
  | (i, _) :: rest =>
    match discover i with
    | .error e => (.error ("error finding candidates via ws discovery: " ++ e), [i])
    | .ok cs =>
      match runDiscovery discover rest with
      | (.error e, att) => (.error e, i :: att)
      | (.ok more, att) => (.ok (cs ++ more), i :: att)

/-- The probe loop of `GetDevicesOnNetwork`, lines 48-92: candidates are
visited in order, a candidate already seen is skipped, each new one is
probed and the outcome logged; nothing is accumulated for return. -/
def probeCandidates (lib : Lib) (probeEnv : String → ProbeEnv)
    (username password : String) :
    List String → List String → List (String × Bool × Option String)
  | [], _ => []
  | c :: rest, seen =>
    if seen.contains c then
      probeCandidates lib probeEnv username password rest seen
    else
      let d := NewDevice c username password
      let r := Probe lib (probeEnv c) d
      (c, r.1) :: probeCandidates lib probeEnv username password rest (c :: seen)

/-- `scan.GetDevicesOnNetwork`, lines 16-95: enumerate interfaces, run
discovery per interface (aborting on the first error), port-scan all
prefixes, rewrite scan hits to device-service URLs, probe every unique
candidate, and finally `return nil, nil`. -/
def GetDevicesOnNetwork (env : ScanEnv) (port : Nat) (username password : String) :
    Except String (Option (List Device)) :=
  match env.ifaces with
  | .error e => .error ("error getting IP4 interfaces: " ++ e)
  | .ok ifaces =>
    match (runDiscovery env.discover ifaces).1 with
    | .error e => .error e
    | .ok discCandidates =>
      match FindHostsWithOpenPort env.dial port (ifaces.map Prod.snd) with
      | .error e => .error ("error finding candidates via scan: " ++ e)
      | .ok portCandidates =>
        let candidates := discCandidates ++
          portCandidates.map (fun c => "http://" ++ c ++ "/onvif/device_service")
        let _probed := probeCandidates env.lib env.probeEnv username password candidates []
        .ok none

/-! ## Concrete instances used by witnesses and counterexamples -/

/-- A concrete library instantiation (the handshake never inspects these
values). -/
def lib0 : Lib :=
  { sha1b64 := fun s => s, b64 := fun s => s, fmtTime := fun t => toString t }

/-- A probe environment whose capability discovery succeeds with a media
address but whose clock-time fetch fails. -/
def envClockFail : ProbeEnv :=
  { capsResult := .ok { mediaAddress := "http://192.168.1.1/onvif/media_service" },
    timeResult := .error "EOF",
    infoResult := .ok {},
    profilesResult := .ok [],
    streamUri := fun _ => .ok "",
    now := 0, localTime := fun _ => 0, nonce := fun _ => "n" }

/-- A probe environment in which every handshake step succeeds. -/
def envAllOk : ProbeEnv :=
  { capsResult := .ok { mediaAddress := "http://192.168.1.1/onvif/media_service" },
    timeResult := .ok 5,
    infoResult := .ok { manufacturer := "Amcrest" },
    profilesResult := .ok [],
    streamUri := fun _ => .ok "rtsp://192.168.1.1/stream",
    now := 3, localTime := fun k => 100 + k, nonce := fun _ => "n" }

/-- A dial function with one open port, everything else refused. -/
def dialRefuse : String → DialResult := fun c =>
  if c = "10.0.0.2:80" then .connected else .failed "connection refused"

/-- A dial function with one open port on the 192.168.1.0/30 network. -/
def dialOpen192 : String → DialResult := fun c =>
  if c = "192.168.1.2:80" then .connected else .failed "connection refused"

/-- A scan environment whose interface table is empty. -/
def envEmptyScan : ScanEnv :=
  { ifaces := .ok [],
    discover := fun _ => .ok [],
    dial := fun _ => .connected,
    probeEnv := fun _ => envAllOk,
    lib := lib0 }

/-- A scan environment with two interfaces whose first discovery attempt
fails. -/
def envDiscFail : ScanEnv :=
  { ifaces := .ok [("eth0", { addr := 3232235777, len := 30 }),
                   ("eth1", { addr := 3232235777, len := 30 })],
    discover := fun i => if i = "eth0" then .error "boom" else .ok ["http://10.0.0.9:80/onvif/device_service"],
    dial := fun _ => .failed "connection refused",
    probeEnv := fun _ => envAllOk,
    lib := lib0 }

/-! ## Helper definitions for the theorems -/

/-- The request trace of a profile-fetch outcome, error or not. -/
def traceOf : Except (String × List Request) (List Profile × List Request) → List Request
  | .error (_, reqs) => reqs
  | .ok (_, reqs) => reqs

/-- The parsed discovery packet of the spec's end-to-end scenario. -/
def packet1 : Option ProbeResponse × String :=
  (some { uuid := "urn:uuid:eccb3c9d-8031-4215-a1f6-b25e8efa52a6",
          Matches := [{ endpointReference := "uuid:b1fc8184",
                        types := "dn:NetworkVideoTransmitter tds:Device",
                        scopes := "",
                        xaddrs := "http://10.0.0.99/onvif/device_service" }] },
    "10.0.0.5:3702")

/-- A request carries clock offset `off`: its recorded offset is `off` and,
when it is authenticated, its creation timestamp is the local clock reading
at the request plus `off` (the instant rendered in UTC by `Lib.fmtTime`). -/
def reqOKOffset (off : Int) (r : Request) : Prop :=
  r.offsetUsed = off ∧
    ∀ un nb c dg, r.header = SecHeader.auth un nb c dg → c = r.localTime + off

/-- Whether a dial outcome is the resource-exhaustion error that
`IsPortOpen` singles out (`too many open files`). -/
def isExhaustDial : DialResult → Bool
  | .connected => false
  | .failed msg => goContains msg "too many open files"

/-- A device with configured credentials, as probed in the witnesses. -/
def dAdmin : Device :=
  NewDevice "http://192.168.1.1/onvif/device_service" "admin" "pw"

/-- The capability set served by `envAllOk`. -/
def capsMedia : Capabilities :=
  { mediaAddress := "http://192.168.1.1/onvif/media_service" }

/-- The identity-retrieval request issued by `Probe lib0 envAllOk dAdmin`
(the first request after the clock offset is computed). -/
def reqInfoAdmin : Request :=
  mkRequest lib0
    { dAdmin with capabilities := capsMedia, clockOffset := -(envAllOk.now - 5) }
    (envAllOk.localTime 2) (envAllOk.nonce 2) dAdmin.address getDeviceInformationBody

/-! ## Claim C1 -/

/-- C1, counterexample: for the spec's scenario — a correlated response
advertising `http://10.0.0.99/onvif/device_service` received from source
address `10.0.0.5` — the candidate returned by `GetONVIFVideoTransmitters`
is not the claimed `http://10.0.0.5/onvif/device_service`. -/
theorem claimC1_cex :
    GetONVIFVideoTransmitters "eccb3c9d-8031-4215-a1f6-b25e8efa52a6"
      [(some { uuid := "urn:uuid:eccb3c9d-8031-4215-a1f6-b25e8efa52a6",
               Matches := [{ endpointReference := "uuid:b1fc8184",
                             types := "dn:NetworkVideoTransmitter tds:Device",
                             scopes := "",
                             xaddrs := "http://10.0.0.99/onvif/device_service" }] },
        "10.0.0.5:3702")] ≠
      ["http://10.0.0.5/onvif/device_service"] := by
  decide

/-- C1 (amended): for a discovery response whose correlation matches the
probe, whose match carries the video-transmitter marker, and whose
advertised endpoint URL omits a port, the corrected candidate replaces the
URL's host with the packet's source address and the defaulted port 80 is
rendered explicitly — `scheme://src:80/path`, e.g.
`http://10.0.0.5:80/onvif/device_service`, rather than the bare
`http://10.0.0.5/onvif/device_service` of the claim. -/
theorem claimC1 (msgID uuid epr types scopes xaddrs srcAddr : String) (u : GoURL)
    (hcorr : goContains uuid msgID = true)
    (htype : goContains types "NetworkVideoTransmitter" = true)
    (hparse : goParseURL xaddrs = some u)
    (hport : goPort u.host = "") :
    GetONVIFVideoTransmitters msgID
      [(some { uuid := uuid,
               Matches := [{ endpointReference := epr, types := types,
                             scopes := scopes, xaddrs := xaddrs }] }, srcAddr)] =
      [u.scheme ++ "://" ++ ipFromAddr srcAddr ++ ":80" ++ u.path] := by
  simp only [GetONVIFVideoTransmitters, List.foldl, handleResponse, hcorr, htype,
    correctEndpoint, hparse, hport, goURLString, if_pos, if_true, List.filterMap,
    List.nil_append]
  have h80 : ipFromAddr srcAddr ++ ":" ++ "80" = ipFromAddr srcAddr ++ ":80" := by
    rw [String.append_assoc]
    exact congrArg (fun s => ipFromAddr srcAddr ++ s) rfl
  rw [h80, ← String.append_assoc (u.scheme ++ "://") (ipFromAddr srcAddr) ":80"]

/-- C1, witness for the amended theorem at the spec's concrete scenario. -/
theorem claimC1_witness :
    GetONVIFVideoTransmitters "eccb3c9d-8031-4215-a1f6-b25e8efa52a6"
      [(some { uuid := "urn:uuid:eccb3c9d-8031-4215-a1f6-b25e8efa52a6",
               Matches := [{ endpointReference := "uuid:b1fc8184",
                             types := "dn:NetworkVideoTransmitter tds:Device",
                             scopes := "",
                             xaddrs := "http://10.0.0.99/onvif/device_service" }] },
        "10.0.0.5:3702")] =
      ["http" ++ "://" ++ ipFromAddr "10.0.0.5:3702" ++ ":80" ++ "/onvif/device_service"] :=
  claimC1 _ _ _ _ _ _ _
    { scheme := "http", host := "10.0.0.99", path := "/onvif/device_service" }
    (by decide) (by decide) (by decide) (by decide)

/-! ## Claim C6 -/

/-- Membership in the discovery receive loop's accumulator: an endpoint is
collected exactly when some successfully parsed packet's response
contributes it. -/
theorem gavt_mem_aux (msgID : String) (packets : List (Option ProbeResponse × String)) :
    ∀ (acc : List String) (e : String),
      (e ∈ packets.foldl (fun acc p =>
          match p.1 with
          | none => acc
          | some resp => acc ++ handleResponse msgID resp p.2) acc ↔
        (e ∈ acc ∨ ∃ resp src, (some resp, src) ∈ packets ∧ e ∈ handleResponse msgID resp src)) := by
  induction packets with
  | nil => intro acc e; simp
  | cons p rest ih =>
    intro acc e
    obtain ⟨o, s⟩ := p
    cases o with
    | none =>
      simp only [List.foldl_cons]
      rw [ih]
      simp only [List.mem_cons, Prod.mk.injEq]
      constructor
      · rintro (h | ⟨r, src, hm, he⟩)
        · exact Or.inl h
        · exact Or.inr ⟨r, src, Or.inr hm, he⟩
      · rintro (h | ⟨r, src, (⟨hr, _⟩ | hm), he⟩)
        · exact Or.inl h
        · exact absurd hr (by simp)
        · exact Or.inr ⟨r, src, hm, he⟩
    | some resp =>
      simp only [List.foldl_cons]
      rw [ih]
      simp only [List.mem_append, List.mem_cons, Prod.mk.injEq]
      constructor
      · rintro ((h | h) | ⟨r, src, hm, he⟩)
        · exact Or.inl h
        · exact Or.inr ⟨resp, s, Or.inl ⟨rfl, rfl⟩, h⟩
        · exact Or.inr ⟨r, src, Or.inr hm, he⟩
      · rintro (h | ⟨r, src, (⟨hr, hs⟩ | hm), he⟩)
        · exact Or.inl (Or.inl h)
        · cases hr; cases hs; exact Or.inl (Or.inr he)
        · exact Or.inr ⟨r, src, hm, he⟩

/-- C6: an endpoint is returned by `GetONVIFVideoTransmitters` only if it
comes from a received response whose `RelatesTo` field contains the
outgoing probe's message identifier as a substring and from a match whose
`Types` field contains the `NetworkVideoTransmitter` marker; a response
failing either test contributes nothing. -/
theorem claimC6 (msgID : String) (packets : List (Option ProbeResponse × String)) (e : String)
    (he : e ∈ GetONVIFVideoTransmitters msgID packets) :
    ∃ resp src, (some resp, src) ∈ packets ∧ goContains resp.uuid msgID = true ∧
      ∃ m ∈ resp.Matches, goContains m.types "NetworkVideoTransmitter" = true ∧
        correctEndpoint (ipFromAddr src) m.xaddrs = some e := by
  unfold GetONVIFVideoTransmitters at he
  have h := (gavt_mem_aux msgID packets [] e).mp he
  rcases h with h | ⟨resp, src, hmem, hh⟩
  · exact absurd h (by simp)
  rw [handleResponse] at hh
  by_cases hc : goContains resp.uuid msgID = true
  · rw [if_pos hc] at hh
    obtain ⟨m, hm, hf⟩ := List.mem_filterMap.mp hh
    by_cases ht : goContains m.types "NetworkVideoTransmitter" = true
    · exact ⟨resp, src, hmem, hc, m, hm, ht, by rwa [if_pos ht] at hf⟩
    · rw [if_neg ht] at hf; cases hf
  · rw [if_neg hc] at hh; cases hh

/-- C6, witness: the scenario packet's endpoint is collected, and the
theorem recovers the correlated response and typed match behind it. -/
theorem claimC6_witness :
    ∃ resp src, (some resp, src) ∈ [packet1] ∧
      goContains resp.uuid "eccb3c9d-8031-4215-a1f6-b25e8efa52a6" = true ∧
      ∃ m ∈ resp.Matches, goContains m.types "NetworkVideoTransmitter" = true ∧
        correctEndpoint (ipFromAddr src) m.xaddrs =
          some "http://10.0.0.5:80/onvif/device_service" :=
  claimC6 "eccb3c9d-8031-4215-a1f6-b25e8efa52a6" [packet1]
    "http://10.0.0.5:80/onvif/device_service" (by decide)

/-! ## Claim C2 -/

/-- C2, counterexample: with capability discovery succeeding (non-empty
media address) and the clock-time fetch failing, `Device.Probe` returns
`false` for the recognized/valid flag, not `true` as the claim states. -/
theorem claimC2_cex :
    (Probe lib0 envClockFail (NewDevice "http://192.168.1.1/onvif/device_service" "" "")).1 =
      (false, some "failed to get system date and time: EOF") := by
  decide

/-- C2 (amended): when capability discovery succeeds with a non-empty
media-service address, a failure of the device-clock-time fetch is
surfaced as an error but with the recognized/valid flag `false`; the flag
is `true` (with any later failure still surfaced) only once the clock-time
fetch has succeeded, i.e. from the identity-retrieval step onward. -/
theorem claimC2 (lib : Lib) (env : ProbeEnv) (d : Device) (caps : Capabilities)
    (hcaps : env.capsResult = .ok caps) (hmedia : ¬caps.mediaAddress = "") :
    (∀ e, env.timeResult = .error e →
      (Probe lib env d).1 =
        (false, some ("failed to get system date and time: " ++ e))) ∧
    (∀ t, env.timeResult = .ok t → (Probe lib env d).1.1 = true) := by
  constructor
  · intro e htime
    simp [Probe, hcaps, hmedia, htime]
  · intro t htime
    cases hinfo : env.infoResult with
    | error e => simp [Probe, hcaps, hmedia, htime, hinfo]
    | ok info =>
      cases hprof : env.profilesResult with
      | error e => simp [Probe, hcaps, hmedia, htime, hinfo, hprof]
      | ok profs =>
        simp only [Probe, hcaps, htime, hinfo, hprof]
        rw [if_neg hmedia]
        split <;> simp

/-- C2, witness for the amended theorem: the clock-failure branch at the
concrete environment. -/
theorem claimC2_witness :
    (Probe lib0 envClockFail (NewDevice "http://192.168.1.1/onvif/device_service" "" "")).1 =
      (false, some ("failed to get system date and time: " ++ "EOF")) :=
  (claimC2 lib0 envClockFail
      (NewDevice "http://192.168.1.1/onvif/device_service" "" "")
      { mediaAddress := "http://192.168.1.1/onvif/media_service" }
      rfl (by decide)).1 "EOF" rfl

/-! ## Claim C3 -/

/-- A request built by `makeRequest` carries no security header exactly
when the device has no configured username. -/
theorem mkRequest_header_noAuth (lib : Lib) (d : Device) (lt : Int) (n u b : String) :
    ((mkRequest lib d lt n u b).header = SecHeader.noAuth) ↔ d.username = "" := by
  by_cases h : d.username = "" <;> simp [mkRequest, h]

/-- Every request in the profile-fetch trace is a `makeRequest` of the
device state entering the step. -/
theorem fetchURIs_trace_mem (lib : Lib) (env : ProbeEnv) (d : Device) :
    ∀ (ps : List Profile) (k : Nat) (r : Request),
      r ∈ traceOf (fetchURIs lib env d ps k) →
      ∃ lt n u b, r = mkRequest lib d lt n u b := by
  intro ps
  induction ps with
  | nil => intro k r hr; simp [fetchURIs, traceOf] at hr
  | cons p rest ih =>
    intro k r hr
    rw [fetchURIs] at hr
    cases hs : env.streamUri p.token with
    | error e =>
      simp only [hs, traceOf] at hr
      rw [List.mem_singleton] at hr
      exact ⟨_, _, _, _, hr⟩
    | ok uri =>
      simp only [hs] at hr
      cases hrec : fetchURIs lib env d rest (k + 1) with
      | error q =>
        obtain ⟨e, reqs⟩ := q
        simp only [hrec, traceOf, List.mem_cons] at hr
        rcases hr with rfl | hr
        · exact ⟨_, _, _, _, rfl⟩
        · exact ih (k + 1) r (by rw [hrec]; exact hr)
      | ok q =>
        obtain ⟨ps2, reqs⟩ := q
        simp only [hrec, traceOf, List.mem_cons] at hr
        rcases hr with rfl | hr
        · exact ⟨_, _, _, _, rfl⟩
        · exact ih (k + 1) r (by rw [hrec]; exact hr)

/-- Every request issued during `Device.Probe` is a `makeRequest` of some
intermediate device state, all of which share the original username. -/
theorem probe_trace_mem (lib : Lib) (env : ProbeEnv) (d : Device) (r : Request)
    (hr : r ∈ (Probe lib env d).2.2) :
    ∃ d' lt n u b, d'.username = d.username ∧ r = mkRequest lib d' lt n u b := by
  unfold Probe at hr
  cases hcaps : env.capsResult with
  | error e =>
    simp only [hcaps, List.mem_singleton] at hr
    exact ⟨d, _, _, _, _, rfl, hr⟩
  | ok caps =>
    simp only [hcaps] at hr
    by_cases hm : caps.mediaAddress = ""
    · rw [if_pos hm] at hr
      simp only [List.mem_singleton] at hr
      exact ⟨d, _, _, _, _, rfl, hr⟩
    · rw [if_neg hm] at hr
      cases htime : env.timeResult with
      | error e =>
        simp only [htime, List.mem_cons, List.not_mem_nil, or_false] at hr
        rcases hr with rfl | rfl
        · exact ⟨d, _, _, _, _, rfl, rfl⟩
        · exact ⟨_, _, _, _, _, by rfl, rfl⟩
      | ok t =>
        simp only [htime] at hr
        cases hinfo : env.infoResult with
        | error e =>
          simp only [hinfo, List.mem_cons, List.not_mem_nil, or_false] at hr
          rcases hr with rfl | rfl | rfl
          · exact ⟨d, _, _, _, _, rfl, rfl⟩
          · exact ⟨_, _, _, _, _, by rfl, rfl⟩
          · exact ⟨_, _, _, _, _, by rfl, rfl⟩
        | ok info =>
          simp only [hinfo] at hr
          cases hprof : env.profilesResult with
          | error e =>
            simp only [hprof, List.mem_cons, List.not_mem_nil, or_false] at hr
            rcases hr with rfl | rfl | rfl | rfl
            · exact ⟨d, _, _, _, _, rfl, rfl⟩
            · exact ⟨_, _, _, _, _, by rfl, rfl⟩
            · exact ⟨_, _, _, _, _, by rfl, rfl⟩
            · exact ⟨_, _, _, _, _, by rfl, rfl⟩
          | ok profs =>
            simp only [hprof] at hr
            split at hr
            case _ e reqs heq =>
              simp only [List.mem_append, List.mem_cons, List.not_mem_nil, or_false] at hr
              rcases hr with (rfl | rfl | rfl | rfl) | hr
              · exact ⟨d, _, _, _, _, rfl, rfl⟩
              · exact ⟨_, _, _, _, _, by rfl, rfl⟩
              · exact ⟨_, _, _, _, _, by rfl, rfl⟩
              · exact ⟨_, _, _, _, _, by rfl, rfl⟩
              · obtain ⟨lt, n, u, b, hreq⟩ :=
                  fetchURIs_trace_mem lib env _ profs 4 r (by rw [heq]; exact hr)
                exact ⟨_, lt, n, u, b, by rfl, hreq⟩
            case _ ps2 reqs heq =>
              simp only [List.mem_append, List.mem_cons, List.not_mem_nil, or_false] at hr
              rcases hr with (rfl | rfl | rfl | rfl) | hr
              · exact ⟨d, _, _, _, _, rfl, rfl⟩
              · exact ⟨_, _, _, _, _, by rfl, rfl⟩
              · exact ⟨_, _, _, _, _, by rfl, rfl⟩
              · exact ⟨_, _, _, _, _, by rfl, rfl⟩
              · obtain ⟨lt, n, u, b, hreq⟩ :=
                  fetchURIs_trace_mem lib env _ profs 4 r (by rw [heq]; exact hr)
                exact ⟨_, lt, n, u, b, by rfl, hreq⟩

/-- C3, counterexample: with a configured username, the very first request
of the handshake — capability discovery — carries a security header, so
the capability and clock requests are not unauthenticated for every
credential configuration. -/
theorem claimC3_cex :
    ((Probe lib0 envAllOk
        (NewDevice "http://192.168.1.1/onvif/device_service" "admin" "pw")).2.2.map
      Request.header).head? ≠ some SecHeader.noAuth := by
  decide

/-- C3 (amended): a request of the probe handshake — the capability
discovery and device-clock-time requests included — carries no
security/authentication header block if and only if no username is
configured; with a configured username every request, those two included,
carries the header. -/
theorem claimC3 (lib : Lib) (env : ProbeEnv) (d : Device) (r : Request)
    (hr : r ∈ (Probe lib env d).2.2) :
    (r.header = SecHeader.noAuth ↔ d.username = "") := by
  obtain ⟨d', lt, n, u, b, hu, rfl⟩ := probe_trace_mem lib env d r hr
  rw [mkRequest_header_noAuth, hu]

/-- C3, witness: the capability-discovery request of a probe with username
`admin` instantiates the amended theorem. -/
theorem claimC3_witness :
    ((mkRequest lib0 (NewDevice "http://192.168.1.1/onvif/device_service" "admin" "pw")
        (100 + 0) "n" "http://192.168.1.1/onvif/device_service"
        getCapabilitiesBody).header = SecHeader.noAuth ↔
      (NewDevice "http://192.168.1.1/onvif/device_service" "admin" "pw").username = "") :=
  claimC3 lib0 envAllOk (NewDevice "http://192.168.1.1/onvif/device_service" "admin" "pw")
    _ (by decide)

/-! ## Claim C5 -/

/-- A request built by `makeRequest` records the device's current clock
offset and, when authenticated, timestamps itself with the local clock
reading plus that offset. -/
theorem mkRequest_reqOK (lib : Lib) (d : Device) (lt : Int) (n u b : String) :
    reqOKOffset d.clockOffset (mkRequest lib d lt n u b) := by
  refine ⟨rfl, ?_⟩
  intro un nb c dg h
  by_cases hu : d.username = ""
  · simp [mkRequest, hu] at h
  · simp only [mkRequest, hu, ne_eq, not_false_eq_true, if_true, SecHeader.auth.injEq] at h
    exact h.2.2.1.symm

/-- Every request of the profile-fetch trace carries the clock offset the
device entered the step with. -/
theorem fetchURIs_trace_reqOK (lib : Lib) (env : ProbeEnv) (d : Device)
    (ps : List Profile) (k : Nat) (r : Request)
    (hr : r ∈ traceOf (fetchURIs lib env d ps k)) :
    reqOKOffset d.clockOffset r := by
  obtain ⟨lt, n, u, b, rfl⟩ := fetchURIs_trace_mem lib env d ps k r hr
  exact mkRequest_reqOK lib d lt n u b

theorem govr_drop_two {α : Type} (a b : α) (l : List α) :
    List.drop 2 (a :: b :: l) = l := rfl

/-- C5: once capability discovery and the clock fetch succeed, the clock
offset stored on the device is `-(now - deviceTime)`, the two requests
issued before that computation still used the device's prior offset, and
every request issued after it — identity, profile listing, per-profile
stream URIs — carries that offset, with any authentication timestamp equal
to the request's local clock reading plus the offset (the instant a UTC
value rendered by `Lib.fmtTime`); the offset is never recomputed
mid-handshake. -/
theorem claimC5 (lib : Lib) (env : ProbeEnv) (d : Device) (caps : Capabilities) (t : Int)
    (hcaps : env.capsResult = .ok caps) (hmedia : ¬caps.mediaAddress = "")
    (htime : env.timeResult = .ok t) :
    ((Probe lib env d).2.1.clockOffset = -(env.now - t)) ∧
    (((Probe lib env d).2.2.take 2).map Request.offsetUsed =
      [d.clockOffset, d.clockOffset]) ∧
    (∀ r ∈ (Probe lib env d).2.2.drop 2, reqOKOffset (-(env.now - t)) r) := by
  unfold Probe
  simp only [hcaps, htime]
  rw [if_neg hmedia]
  cases hinfo : env.infoResult with
  | error e =>
    simp only [hinfo]
    refine ⟨by trivial, by trivial, ?_⟩
    intro r hr
    rw [govr_drop_two, List.mem_singleton] at hr
    subst hr
    exact mkRequest_reqOK lib _ _ _ _ _
  | ok info =>
    simp only [hinfo]
    cases hprof : env.profilesResult with
    | error e =>
      simp only [hprof]
      refine ⟨by trivial, by trivial, ?_⟩
      intro r hr
      rw [govr_drop_two, List.mem_cons, List.mem_singleton] at hr
      rcases hr with rfl | rfl
      · exact mkRequest_reqOK lib _ _ _ _ _
      · exact mkRequest_reqOK lib _ _ _ _ _
    | ok profs =>
      simp only [hprof]
      split
      case _ e reqs heq =>
        refine ⟨by trivial, by trivial, ?_⟩
        intro r hr
        dsimp only [List.cons_append, List.nil_append] at hr
        rw [govr_drop_two, List.mem_cons, List.mem_cons] at hr
        rcases hr with rfl | rfl | hr
        · exact mkRequest_reqOK lib _ _ _ _ _
        · exact mkRequest_reqOK lib _ _ _ _ _
        · exact fetchURIs_trace_reqOK lib env _ profs 4 r (by rw [heq]; exact hr)
      case _ ps2 reqs heq =>
        refine ⟨by trivial, by trivial, ?_⟩
        intro r hr
        dsimp only [List.cons_append, List.nil_append] at hr
        rw [govr_drop_two, List.mem_cons, List.mem_cons] at hr
        rcases hr with rfl | rfl | hr
        · exact mkRequest_reqOK lib _ _ _ _ _
        · exact mkRequest_reqOK lib _ _ _ _ _
        · exact fetchURIs_trace_reqOK lib env _ profs 4 r (by rw [heq]; exact hr)

/-- C5, witness at the concrete all-success environment with credentials:
the stored offset is `-(3 - 5) = 2`, the pre-computation requests used the
initial offset `0`, and the identity request carries the new offset. -/
theorem claimC5_witness :
    (Probe lib0 envAllOk dAdmin).2.1.clockOffset = -(envAllOk.now - 5) ∧
    ((Probe lib0 envAllOk dAdmin).2.2.take 2).map Request.offsetUsed =
      [dAdmin.clockOffset, dAdmin.clockOffset] ∧
    reqInfoAdmin.offsetUsed = -(envAllOk.now - 5) :=
  ⟨(claimC5 lib0 envAllOk dAdmin capsMedia 5 rfl (by decide) rfl).1,
   (claimC5 lib0 envAllOk dAdmin capsMedia 5 rfl (by decide) rfl).2.1,
   ((claimC5 lib0 envAllOk dAdmin capsMedia 5 rfl (by decide) rfl).2.2
      reqInfoAdmin (by decide)).1⟩

/-! ## Claim C7 -/

/-- A resource-exhaustion dial outcome anywhere in the candidate list
aborts the whole scan with an error. -/
theorem scanCandidates_exhaust (dial : String → DialResult) :
    ∀ cs : List String, (∃ c ∈ cs, isExhaustDial (dial c) = true) →
      ∃ e, scanCandidates dial cs = .error e := by
  intro cs
  induction cs with
  | nil => rintro ⟨c, hc, _⟩; cases hc
  | cons c rest ih =>
    rintro ⟨c', hc', hex⟩
    rcases List.mem_cons.mp hc' with rfl | hmem
    · cases hd : dial c' with
      | connected => simp [hd, isExhaustDial] at hex
      | failed msg =>
        simp only [hd, isExhaustDial] at hex
        exact ⟨"error opening " ++ c' ++ ": " ++ msg,
          by simp [scanCandidates, IsPortOpen, hd, hex]⟩
    · obtain ⟨e, he⟩ := ih ⟨c', hmem, hex⟩
      rcases hio : IsPortOpen c (dial c) with ⟨b, o⟩
      cases o with
      | some e2 => exact ⟨e2, by simp [scanCandidates, hio]⟩
      | none => exact ⟨e, by simp [scanCandidates, hio, he]⟩

/-- Without any resource-exhaustion outcome, the scan returns exactly the
candidates whose dial succeeded; other errors are recorded as not open. -/
theorem scanCandidates_ok (dial : String → DialResult) :
    ∀ cs : List String, (∀ c ∈ cs, isExhaustDial (dial c) = false) →
      scanCandidates dial cs =
        .ok (cs.filter (fun c => (IsPortOpen c (dial c)).1)) := by
  intro cs
  induction cs with
  | nil => intro _; rfl
  | cons c rest ih =>
    intro h
    have hc := h c (List.mem_cons_self c rest)
    have hrest := ih (fun x hx => h x (List.mem_cons_of_mem c hx))
    cases hd : dial c with
    | connected =>
      simp [scanCandidates, IsPortOpen, hd, hrest, List.filter_cons]
    | failed msg =>
      have hex : goContains msg "too many open files" = false := by
        simpa only [hd, isExhaustDial] using hc
      simp [scanCandidates, IsPortOpen, hd, hex, hrest, List.filter_cons]

/-- C7: during the port scan, a dial error indicating local resource
exhaustion (`too many open files`) aborts the whole scan with an error
(`IsPortOpen` returns the error and the worker's `panic` kills the run);
any other dial error makes `IsPortOpen` report `(false, nil)`, so the
address is recorded as not open and scanning continues, returning exactly
the candidates whose port was open. -/
theorem claimC7 (dial : String → DialResult) (cs : List String) :
    (∀ c msg, goContains msg "too many open files" = false →
      IsPortOpen c (DialResult.failed msg) = (false, none)) ∧
    ((∃ c ∈ cs, isExhaustDial (dial c) = true) →
      ∃ e, scanCandidates dial cs = .error e) ∧
    ((∀ c ∈ cs, isExhaustDial (dial c) = false) →
      scanCandidates dial cs =
        .ok (cs.filter (fun c => (IsPortOpen c (dial c)).1))) :=
  ⟨fun c msg hm => by simp [IsPortOpen, hm],
   scanCandidates_exhaust dial cs,
   scanCandidates_ok dial cs⟩

/-- C7, witness: with one refused and one open candidate the scan returns
only the open one. -/
theorem claimC7_witness :
    scanCandidates dialRefuse ["10.0.0.1:80", "10.0.0.2:80"] = .ok ["10.0.0.2:80"] := by
  have h := (claimC7 dialRefuse ["10.0.0.1:80", "10.0.0.2:80"]).2.2 (by decide)
  rw [h]
  rfl

/-! ## Claim C4 -/

/-- The ws-discovery loop stops at the first failing interface: when every
interface before `i` succeeds and `i` fails, the loop returns the wrapped
error and only the interfaces up to and including `i` were attempted. -/
theorem runDiscovery_error (discover : String → Except String (List String)) :
    ∀ (pre : List (String × CIDR)) (i : String) (c : CIDR)
      (post : List (String × CIDR)) (e : String),
      (∀ p ∈ pre, ∃ cs, discover p.1 = .ok cs) → discover i = .error e →
      runDiscovery discover (pre ++ (i, c) :: post) =
        (.error ("error finding candidates via ws discovery: " ++ e),
          pre.map Prod.fst ++ [i]) := by
  intro pre
  induction pre with
  | nil => intro i c post e _ hi; simp [runDiscovery, hi]
  | cons p pre2 ih =>
    intro i c post e hpre hi
    obtain ⟨cs, hp⟩ := hpre p (List.mem_cons_self p pre2)
    obtain ⟨p1, p2⟩ := p
    simp only [List.cons_append, runDiscovery, hp, List.append_eq]
    rw [ih i c post e (fun q hq => hpre q (List.mem_cons_of_mem (p1, p2) hq)) hi]
    simp

/-- C4 (amended): a failure to join the multicast group or to send the
probe on one interface aborts the entire `GetDevicesOnNetwork` run — the
wrapped error is returned to the caller, the remaining interfaces are
never attempted, and the port scan never runs; discovery does not proceed
with the other interfaces. -/
theorem claimC4 (env : ScanEnv) (pre post : List (String × CIDR)) (i : String) (c : CIDR)
    (e : String) (port : Nat) (un pw : String)
    (hif : env.ifaces = .ok (pre ++ (i, c) :: post))
    (hpre : ∀ p ∈ pre, ∃ cs, env.discover p.1 = .ok cs)
    (hdisc : env.discover i = .error e) :
    GetDevicesOnNetwork env port un pw =
      .error ("error finding candidates via ws discovery: " ++ e) ∧
    (runDiscovery env.discover (pre ++ (i, c) :: post)).2 = pre.map Prod.fst ++ [i] := by
  have h := runDiscovery_error env.discover pre i c post e hpre hdisc
  constructor
  · unfold GetDevicesOnNetwork
    simp only [hif, h]
  · rw [h]

/-- C4, counterexample: with two interfaces and the first discovery attempt
failing, the whole run returns the error and the second interface is never
attempted — the caller does not proceed with other interfaces or the port
scan. -/
theorem claimC4_cex :
    GetDevicesOnNetwork envDiscFail 80 "" "" =
      .error "error finding candidates via ws discovery: boom" ∧
    (runDiscovery envDiscFail.discover
        [("eth0", { addr := 3232235777, len := 30 }),
         ("eth1", { addr := 3232235777, len := 30 })]).2 = ["eth0"] := by
  constructor <;> rfl

/-- C4, witness for the amended theorem at the concrete two-interface
environment. -/
theorem claimC4_witness :
    GetDevicesOnNetwork envDiscFail 80 "" "" =
      .error ("error finding candidates via ws discovery: " ++ "boom") ∧
    (runDiscovery envDiscFail.discover
        ([] ++ ("eth0", { addr := 3232235777, len := 30 }) ::
          [("eth1", { addr := 3232235777, len := 30 })])).2 =
      List.map Prod.fst ([] : List (String × CIDR)) ++ ["eth0"] :=
  claimC4 envDiscFail [] [("eth1", { addr := 3232235777, len := 30 })] "eth0"
    { addr := 3232235777, len := 30 } "boom" 80 "" "" rfl (by simp) rfl

/-! ## Claim C8 -/

theorem prefixContains_iff (c : CIDR) (a : Nat) :
    prefixContains c a = true ↔
      a < 2 ^ 32 ∧ a / 2 ^ (32 - c.len) = c.addr / 2 ^ (32 - c.len) := by
  simp [prefixContains]

/-- The enumeration loop started at address `a` inside a masked prefix of
size `2^(32-len)` that fits in the address space returns exactly the
addresses from `a` to the end of the prefix, provided the fuel exceeds the
remaining count. -/
theorem ipLoop_range (c : CIDR)
    (hmask : c.addr % 2 ^ (32 - c.len) = 0)
    (hbound : c.addr + 2 ^ (32 - c.len) ≤ 2 ^ 32) :
    ∀ (n a fuel : Nat), c.addr ≤ a → a + n = c.addr + 2 ^ (32 - c.len) → n < fuel →
      ipLoop c a fuel = List.range' a n := by
  intro n
  induction n with
  | zero =>
    intro a fuel ha hn hf
    cases fuel with
    | zero => omega
    | succ f =>
      have hq : 2 ^ (32 - c.len) * (c.addr / 2 ^ (32 - c.len)) = c.addr :=
        Nat.mul_div_cancel' (Nat.dvd_of_mod_eq_zero hmask)
      have hS : 0 < 2 ^ (32 - c.len) := Nat.two_pow_pos _
      have hcont : ¬prefixContains c a = true := by
        rw [prefixContains_iff]
        rintro ⟨hlt, hdiv⟩
        have hone : (c.addr / 2 ^ (32 - c.len) + 1) * 2 ^ (32 - c.len) =
            2 ^ (32 - c.len) * (c.addr / 2 ^ (32 - c.len)) + 2 ^ (32 - c.len) := by ring
        have htwo : (c.addr / 2 ^ (32 - c.len) + 1 + 1) * 2 ^ (32 - c.len) =
            2 ^ (32 - c.len) * (c.addr / 2 ^ (32 - c.len)) + 2 ^ (32 - c.len) +
              2 ^ (32 - c.len) := by ring
        have : a / 2 ^ (32 - c.len) = c.addr / 2 ^ (32 - c.len) + 1 :=
          Nat.div_eq_of_lt_le (by omega) (by omega)
        omega
      rw [ipLoop, if_neg hcont]
      rfl
  | succ m ihm =>
    intro a fuel ha hn hf
    cases fuel with
    | zero => omega
    | succ f =>
      have hq : 2 ^ (32 - c.len) * (c.addr / 2 ^ (32 - c.len)) = c.addr :=
        Nat.mul_div_cancel' (Nat.dvd_of_mod_eq_zero hmask)
      have hS : 0 < 2 ^ (32 - c.len) := Nat.two_pow_pos _
      have hcont : prefixContains c a = true := by
        rw [prefixContains_iff]
        refine ⟨by omega, ?_⟩
        have hcomm : c.addr / 2 ^ (32 - c.len) * 2 ^ (32 - c.len) =
            2 ^ (32 - c.len) * (c.addr / 2 ^ (32 - c.len)) := Nat.mul_comm _ _
        have hone : (c.addr / 2 ^ (32 - c.len) + 1) * 2 ^ (32 - c.len) =
            2 ^ (32 - c.len) * (c.addr / 2 ^ (32 - c.len)) + 2 ^ (32 - c.len) := by ring
        exact Nat.div_eq_of_lt_le (by omega) (by omega)
      rw [ipLoop, if_pos hcont, ihm (a + 1) f (by omega) (by omega) (by omega)]
      rfl

/-- C8: for a valid IPv4 prefix of length between 24 and 32 bits,
`GetIPsOnNetwork` returns exactly `2^(32-prefixLen)` addresses, each of
which the (masked) prefix contains. -/
theorem claimC8 (c : CIDR) (h1 : c.addr < 2 ^ 32) (h2 : 24 ≤ c.len) (h3 : c.len ≤ 32) :
    (GetIPsOnNetwork c).length = 2 ^ (32 - c.len) ∧
    ∀ a ∈ GetIPsOnNetwork c, prefixContains c a = true := by
  have hS : 0 < 2 ^ (32 - c.len) := Nat.two_pow_pos _
  have hqle : c.addr / 2 ^ (32 - c.len) * 2 ^ (32 - c.len) ≤ c.addr :=
    Nat.div_mul_le_self _ _
  have hmask : maskedAddr c % 2 ^ (32 - c.len) = 0 := Nat.mul_mod_left _ _
  have hm : maskedAddr c = c.addr / 2 ^ (32 - c.len) * 2 ^ (32 - c.len) := rfl
  have hbound : maskedAddr c + 2 ^ (32 - c.len) ≤ 2 ^ 32 := by
    have hqlt : c.addr / 2 ^ (32 - c.len) < 2 ^ c.len := by
      by_contra hc
      push_neg at hc
      have hge := Nat.mul_le_mul_right (2 ^ (32 - c.len)) hc
      have h2c : 2 ^ c.len * 2 ^ (32 - c.len) = 2 ^ 32 := by
        rw [← pow_add]
        congr 1
        omega
      omega
    have hmul := Nat.mul_le_mul_right (2 ^ (32 - c.len))
      (show c.addr / 2 ^ (32 - c.len) + 1 ≤ 2 ^ c.len from hqlt)
    have hone : (c.addr / 2 ^ (32 - c.len) + 1) * 2 ^ (32 - c.len) =
        c.addr / 2 ^ (32 - c.len) * 2 ^ (32 - c.len) + 2 ^ (32 - c.len) := by ring
    have h2c : 2 ^ c.len * 2 ^ (32 - c.len) = 2 ^ 32 := by
      rw [← pow_add]
      congr 1
      omega
    omega
  have hSle : 2 ^ (32 - c.len) ≤ 2 ^ 32 :=
    Nat.pow_le_pow_right (by norm_num) (by omega)
  have hrun := ipLoop_range { addr := maskedAddr c, len := c.len } hmask hbound
    (2 ^ (32 - c.len)) (maskedAddr c) (2 ^ 32 + 2) le_rfl rfl (by omega)
  have hG : GetIPsOnNetwork c =
      ipLoop { addr := maskedAddr c, len := c.len } (maskedAddr c) (2 ^ 32 + 2) := rfl
  constructor
  · rw [hG, hrun, List.length_range']
  · intro a ha
    rw [hG, hrun, List.mem_range'_1] at ha
    rw [prefixContains_iff]
    refine ⟨by omega, ?_⟩
    have hone : (c.addr / 2 ^ (32 - c.len) + 1) * 2 ^ (32 - c.len) =
        c.addr / 2 ^ (32 - c.len) * 2 ^ (32 - c.len) + 2 ^ (32 - c.len) := by ring
    exact Nat.div_eq_of_lt_le (by omega) (by omega)

/-- C8, witness at the interface prefix `192.168.1.1/30`: four addresses,
and the device address `192.168.1.2` is contained in the prefix. -/
theorem claimC8_witness :
    (GetIPsOnNetwork { addr := 3232235777, len := 30 }).length = 2 ^ (32 - 30) ∧
    prefixContains { addr := 3232235777, len := 30 } 3232235778 = true :=
  ⟨(claimC8 { addr := 3232235777, len := 30 } (by decide) (by decide) (by decide)).1,
   (claimC8 { addr := 3232235777, len := 30 } (by decide) (by decide) (by decide)).2
     3232235778 (by decide)⟩

/-! ## Claim C9 -/

/-- Membership in the gathered scan-candidate set: a candidate string
occurs exactly when some prefix of at most 256 expanded addresses
contributes it. -/
theorem gather_mem (port : Nat) :
    ∀ (cidrs : List CIDR) (x : String),
      x ∈ gatherCandidates port cidrs ↔
        ∃ c ∈ cidrs, ((GetIPsOnNetwork c).map ipString).length ≤ 256 ∧
          ∃ ip ∈ (GetIPsOnNetwork c).map ipString, x = ip ++ ":" ++ toString port := by
  intro cidrs
  induction cidrs with
  | nil => intro x; simp [gatherCandidates]
  | cons c rest ih =>
    intro x
    simp only [gatherCandidates, List.mem_append, ih x, List.mem_cons]
    by_cases hlen : ((GetIPsOnNetwork c).map ipString).length ≤ 256
    · rw [if_pos hlen]
      simp only [List.mem_map]
      constructor
      · rintro (⟨ip, hip, rfl⟩ | ⟨c2, hc2, hl, hx⟩)
        · exact ⟨c, Or.inl rfl, hlen, ip, hip, rfl⟩
        · exact ⟨c2, Or.inr hc2, hl, hx⟩
      · rintro ⟨c2, (rfl | hc2), hl, ip, hip, rfl⟩
        · exact Or.inl ⟨ip, hip, rfl⟩
        · exact Or.inr ⟨c2, hc2, hl, ip, hip, rfl⟩
    · rw [if_neg hlen]
      simp only [List.not_mem_nil, false_or]
      constructor
      · rintro ⟨c2, hc2, hl, hx⟩
        exact ⟨c2, Or.inr hc2, hl, hx⟩
      · rintro ⟨c2, (rfl | hc2), hl, hx⟩
        · exact absurd hl hlen
        · exact ⟨c2, hc2, hl, hx⟩

/-- A successful scan returns a subset of the candidates it was given. -/
theorem scanCandidates_subset (dial : String → DialResult) :
    ∀ (cs ks : List String), scanCandidates dial cs = .ok ks → ks ⊆ cs := by
  intro cs
  induction cs with
  | nil =>
    intro ks h
    simp only [scanCandidates, Except.ok.injEq] at h
    subst h
    exact List.nil_subset _
  | cons c rest ih =>
    intro ks h
    rw [scanCandidates] at h
    rcases hio : IsPortOpen c (dial c) with ⟨b, o⟩
    simp only [hio] at h
    cases o with
    | some e => simp at h
    | none =>
      cases hrec : scanCandidates dial rest with
      | error e => simp [hrec] at h
      | ok ks2 =>
        simp only [hrec, Except.ok.injEq] at h
        subst h
        cases b with
        | true =>
          intro y hy
          rcases List.mem_cons.mp hy with rfl | hy2
          · exact List.mem_cons_self _ _
          · exact List.mem_cons_of_mem _ (ih ks2 hrec hy2)
        | false =>
          intro y hy
          exact List.mem_cons_of_mem _ (ih ks2 hrec hy)

/-- C9: a candidate string appears in the port scanner's candidate set
exactly when it comes from a prefix expanding to at most 256 addresses
(larger prefixes contribute nothing, smaller ones contribute every
address), and every address in the scan's results was such a candidate. -/
theorem claimC9 (port : Nat) (cidrs : List CIDR) (x : String) :
    (x ∈ gatherCandidates port cidrs ↔
      ∃ c ∈ cidrs, ((GetIPsOnNetwork c).map ipString).length ≤ 256 ∧
        ∃ ip ∈ (GetIPsOnNetwork c).map ipString, x = ip ++ ":" ++ toString port) ∧
    (∀ (dial : String → DialResult) (ks : List String),
      FindHostsWithOpenPort dial port cidrs = .ok ks → x ∈ ks →
        x ∈ gatherCandidates port cidrs) :=
  ⟨gather_mem port cidrs x,
   fun dial ks h hx => scanCandidates_subset dial _ ks h hx⟩

/-- C9, witness: on the /30 interface prefix the open host's address is a
gathered candidate and the only scan result. -/
theorem claimC9_witness :
    FindHostsWithOpenPort dialOpen192 80 [{ addr := 3232235777, len := 30 }] =
      .ok ["192.168.1.2:80"] ∧
    "192.168.1.2:80" ∈ gatherCandidates 80 [{ addr := 3232235777, len := 30 }] :=
  ⟨rfl,
   (claimC9 80 [{ addr := 3232235777, len := 30 }] "192.168.1.2:80").2 dialOpen192
     ["192.168.1.2:80"] rfl (by decide)⟩

/-! ## Claim C10 -/

/-- C10: whenever `GetDevicesOnNetwork` returns successfully, the returned
device slice is nil — probed devices are only logged, never returned. -/
theorem claimC10 (env : ScanEnv) (port : Nat) (un pw : String)
    (v : Option (List Device)) (h : GetDevicesOnNetwork env port un pw = .ok v) :
    v = none := by
  unfold GetDevicesOnNetwork at h
  cases hif : env.ifaces with
  | error e => simp [hif] at h
  | ok ifaces =>
    simp only [hif] at h
    cases hdisc : (runDiscovery env.discover ifaces).1 with
    | error e => simp [hdisc] at h
    | ok dc =>
      simp only [hdisc] at h
      cases hscan : FindHostsWithOpenPort env.dial port (ifaces.map Prod.snd) with
      | error e => simp [hscan] at h
      | ok pc =>
        simp only [hscan] at h
        simp at h
        exact h.symm

/-- C10, witness at a concrete environment: the run succeeds and the
returned slice is nil. -/
theorem claimC10_witness :
    GetDevicesOnNetwork envEmptyScan 80 "" "" = .ok none ∧
    (none : Option (List Device)) = none :=
  ⟨rfl, claimC10 envEmptyScan 80 "" "" none rfl⟩

end Govr
